import Mathlib

/-!
# MiniPillScale: `Util.h` button debouncing

A shallow embedding of `class Button`, `struct Input`, `class ButtonHandler` and the
macros `EXECUTE_EVERY` and `WAIT_FOR_CONDITION_WITH_ACTIONS` of `Util.h`, followed by
theorems about them.

Conventions of the embedding:

* `unsigned long` values are natural numbers below `2 ^ w`, where `w` is the bit
  width of `unsigned long` (32 on the AVR and ESP targets of the sketch).  Unsigned
  subtraction is `usub`.
* The platform calls `millis()`, `digitalRead(pin)` and `delay(ms)` are external.
  The value a call returns is an argument of the embedded function, and every call
  is recorded, in program order, in a trace of `Event`s.
-/

namespace MiniPillScale

/-- Arduino pin level `LOW`. -/
def LOW : Bool := false

/-- Arduino pin level `HIGH`. -/
def HIGH : Bool := true

/-- Subtraction of two `unsigned long` values of `w` bits: `a - b` modulo `2 ^ w`. -/
def usub (w a b : Nat) : Nat := (a + 2 ^ w - b) % 2 ^ w

/-- One call of a platform primitive. -/
inductive Event where
  | millis : Event
  | digitalRead (pin : Int) : Event
  | delay (ms : Nat) : Event
  deriving DecidableEq, Repr

/-- Total number of milliseconds passed to `delay` in a trace. -/
def delayed : List Event → Nat
  | [] => 0
  | Event.delay ms :: es => ms + delayed es
  | _ :: es => delayed es

/-- The data members of `class Button`. -/
structure Button where
  BUTTON_PIN : Int
  lastPressTime : Nat
  lastButtonState : Bool
  pressed : Bool
  reportedPress : Bool
  deriving DecidableEq, Repr

/-- The constructor `Button(int pin, bool pressed)`, with the in-class initialisers
`lastPressTime = 0`, `lastButtonState = LOW`, `reportedPress = false`. -/
def Button.new (pin : Int) (pressed : Bool) : Button :=
  { BUTTON_PIN := pin
    lastPressTime := 0
    lastButtonState := LOW
    pressed := pressed
    reportedPress := false }

/-- What one call of `Button::handleButton` produces: the returned value, the
object's members after the call, and the platform calls it made. -/
structure Outcome where
  ret : Bool
  button : Button
  trace : List Event
  deriving DecidableEq, Repr

/-- The method `Button::handleButton(unsigned long currentMillis)`.
`level` is the value returned by the call `digitalRead(BUTTON_PIN)`. -/
def Button.handleButton (w : Nat) (level : Bool) (b : Button) (currentMillis : Nat) :
    Outcome :=
  -- bool buttonState = digitalRead(BUTTON_PIN) == pressed;
  let buttonState : Bool := level == b.pressed
  let t0 : List Event := [Event.digitalRead b.BUTTON_PIN]
  -- if (buttonState && !lastButtonState) { reportedPress = false; }
  let b1 : Button :=
    if buttonState && !b.lastButtonState then { b with reportedPress := false } else b
  -- if (!buttonState && lastButtonState) { reportedPress = false; lastPressTime = 0; delay(10); }
  let b2 : Button :=
    if !buttonState && b1.lastButtonState then
      { b1 with reportedPress := false, lastPressTime := 0 }
    else b1
  let t2 : List Event :=
    if !buttonState && b1.lastButtonState then t0 ++ [Event.delay 10] else t0
  if !b2.reportedPress && buttonState
      && decide (usub w currentMillis b2.lastPressTime ≥ 600) then
    -- reportedPress = true; lastPressTime = currentMillis; delay(10); return true;
    { ret := true
      button := { b2 with reportedPress := true, lastPressTime := currentMillis }
      trace := t2 ++ [Event.delay 10] }
  else if b2.reportedPress && buttonState
      && decide (usub w currentMillis b2.lastPressTime ≥ 100) then
    -- lastPressTime = currentMillis; return true;
    { ret := true
      button := { b2 with lastPressTime := currentMillis }
      trace := t2 }
  else
    -- lastButtonState = buttonState; return false;
    { ret := false
      button := { b2 with lastButtonState := buttonState }
      trace := t2 }

/-- The fields of `struct Input`. -/
structure Input where
  buttonOnePressed : Bool
  buttonTwoPressed : Bool
  buttonThreePressed : Bool
  buttonTopPressed : Bool
  deriving DecidableEq, Repr

/-- The data members of `class ButtonHandler`. -/
structure ButtonHandler where
  buttonOne : Button
  buttonTwo : Button
  buttonThree : Button
  buttonTop : Button
  deriving DecidableEq, Repr

/-- The constructor `ButtonHandler(pinOne, pinTwo, pinThree, pinTop)`: `buttonOne` is
built with `pressed = LOW`, the other three with the default argument `HIGH`. -/
def ButtonHandler.new (pinOne pinTwo pinThree pinTop : Int) : ButtonHandler :=
  { buttonOne := Button.new pinOne LOW
    buttonTwo := Button.new pinTwo HIGH
    buttonThree := Button.new pinThree HIGH
    buttonTop := Button.new pinTop HIGH }

/-- The values returned by the four `digitalRead` calls of one `handleButtons` call,
named after the button that makes the call. -/
structure Levels where
  one : Bool
  two : Bool
  three : Bool
  top : Bool
  deriving DecidableEq, Repr

/-- What one call of `ButtonHandler::handleButtons` produces. -/
structure Snapshot where
  input : Input
  handler : ButtonHandler
  trace : List Event
  deriving DecidableEq, Repr

/-- The method `ButtonHandler::handleButtons()`.  `clock` is the value returned by the
call `millis()` and `lv` holds the values returned by the `digitalRead` calls. -/
def ButtonHandler.handleButtons (w : Nat) (clock : Nat) (lv : Levels)
    (h : ButtonHandler) : Snapshot :=
  -- unsigned long currentMillis = millis();
  let currentMillis : Nat := clock
  let o1 := h.buttonOne.handleButton w lv.one currentMillis
  let o2 := h.buttonTwo.handleButton w lv.two currentMillis
  let o3 := h.buttonThree.handleButton w lv.three currentMillis
  let o4 := h.buttonTop.handleButton w lv.top currentMillis
  { input :=
      { buttonOnePressed := o1.ret
        buttonTwoPressed := o2.ret
        buttonThreePressed := o3.ret
        buttonTopPressed := o4.ret }
    handler :=
      { buttonOne := o1.button
        buttonTwo := o2.button
        buttonThree := o3.button
        buttonTop := o4.button }
    trace := Event.millis :: (o1.trace ++ o2.trace ++ o3.trace ++ o4.trace) }

/-- A run of successive `handleButton` calls on one `Button`: each element of the list
is the pin level read by a call and the timestamp passed to it.  The result lists the
outcome of every call, in order. -/
def Button.run (w : Nat) (b : Button) : List (Bool × Nat) → List Outcome
  | [] => []
  | (level, t) :: rest =>
    (b.handleButton w level t) :: Button.run w (b.handleButton w level t).button rest

/-- The members of the `Button` after a run of `handleButton` calls. -/
def Button.after (w : Nat) (b : Button) : List (Bool × Nat) → Button
  | [] => b
  | (level, t) :: rest => Button.after w (b.handleButton w level t).button rest

/-- The values returned by the calls of a run. -/
def Button.returns (w : Nat) (b : Button) (calls : List (Bool × Nat)) : List Bool :=
  (Button.run w b calls).map Outcome.ret

/-- The calls of a run in which the pin reads the active level `pressed` at each of the
given timestamps. -/
def held (pressed : Bool) (ts : List Nat) : List (Bool × Nat) :=
  ts.map (fun t => (pressed, t))

/-- The calls of a run in which the pin reads the opposite of the active level `pressed`
at each of the given timestamps. -/
def idle (pressed : Bool) (ts : List Nat) : List (Bool × Nat) :=
  ts.map (fun t => (!pressed, t))

/-- Number of `millis()` calls in a trace. -/
def clockReads (es : List Event) : Nat :=
  es.count Event.millis

/-- The pins passed to `digitalRead` in a trace, in program order. -/
def pinsRead (es : List Event) : List Int :=
  es.filterMap (fun e => match e with
    | Event.digitalRead pin => some pin
    | _ => none)

/-- The four buttons of a `ButtonHandler`. -/
inductive Which where
  | one : Which
  | two : Which
  | three : Which
  | top : Which
  deriving DecidableEq, Repr

/-- The `Button` member of a `ButtonHandler` named by `k`. -/
def ButtonHandler.button (h : ButtonHandler) : Which → Button
  | Which.one => h.buttonOne
  | Which.two => h.buttonTwo
  | Which.three => h.buttonThree
  | Which.top => h.buttonTop

/-- The value returned by the `digitalRead` call of the button named by `k`. -/
def Levels.level (lv : Levels) : Which → Bool
  | Which.one => lv.one
  | Which.two => lv.two
  | Which.three => lv.three
  | Which.top => lv.top

/-- The field of `Input` that belongs to the button named by `k`. -/
def Input.field (inp : Input) : Which → Bool
  | Which.one => inp.buttonOnePressed
  | Which.two => inp.buttonTwoPressed
  | Which.three => inp.buttonThreePressed
  | Which.top => inp.buttonTopPressed

/-- The body of one expansion of the macro `EXECUTE_EVERY(interval, block)`, as a step
on the `static unsigned long lastExecutionTime` of that expansion.  `currentTime` is the
value returned by `millis()`.  The result says whether `block` ran and gives the new
value of `lastExecutionTime`. -/
def EXECUTE_EVERY (w interval lastExecutionTime currentTime : Nat) : Bool × Nat :=
  -- if (currentTime - lastExecutionTime >= (interval)) { lastExecutionTime = currentTime; block }
  if usub w currentTime lastExecutionTime ≥ interval then (true, currentTime)
  else (false, lastExecutionTime)

/-- Successive passes through one `EXECUTE_EVERY` expansion at the given clock values:
for each pass, whether `block` ran. -/
def throttleRun (w interval : Nat) (lastExecutionTime : Nat) : List Nat → List Bool
  | [] => []
  | now :: rest =>
    (EXECUTE_EVERY w interval lastExecutionTime now).1 ::
      throttleRun w interval (EXECUTE_EVERY w interval lastExecutionTime now).2 rest

/-- The clock values of the passes through one `EXECUTE_EVERY` expansion at which
`block` ran, in order. -/
def executions (w interval : Nat) (lastExecutionTime : Nat) : List Nat → List Nat
  | [] => []
  | now :: rest =>
    if (EXECUTE_EVERY w interval lastExecutionTime now).1 then
      now :: executions w interval (EXECUTE_EVERY w interval lastExecutionTime now).2 rest
    else executions w interval (EXECUTE_EVERY w interval lastExecutionTime now).2 rest

/-- A program with several `EXECUTE_EVERY` expansions, each with its own interval and its
own `static` variable: `last site` is the `lastExecutionTime` of expansion `site`.  Each
element of the list is a pass through one expansion at a clock value; the result tells,
for each pass, the expansion and whether its `block` ran. -/
def sitesRun (w : Nat) (interval : Nat → Nat) (last : Nat → Nat) :
    List (Nat × Nat) → List (Nat × Bool)
  | [] => []
  | (site, now) :: rest =>
    (site, (EXECUTE_EVERY w (interval site) (last site) now).1) ::
      sitesRun w interval
        (Function.update last site (EXECUTE_EVERY w (interval site) (last site) now).2) rest

/-- How far an expansion of `WAIT_FOR_CONDITION_WITH_ACTIONS` has got: still in the
`while` loop, past the loop (the enclosing function goes on), or left through
`action; return;`. -/
inductive WaitStatus where
  | waiting : WaitStatus
  | continued : WaitStatus
  | aborted : WaitStatus
  deriving DecidableEq, Repr

/-- What an expansion of `WAIT_FOR_CONDITION_WITH_ACTIONS` has done: its status, how many
times `action` ran, and the platform calls made. -/
structure WaitOutcome where
  status : WaitStatus
  actionRuns : Nat
  trace : List Event
  deriving DecidableEq, Repr

/-- The `while (!(condition)) { ... }` loop of `WAIT_FOR_CONDITION_WITH_ACTIONS`.  Each
element of the list is one iteration: the value of `condition` and the value returned by
`millis()` (read only when the condition is false). -/
def waitLoop (w timeout startTime : Nat) : List (Bool × Nat) → WaitOutcome
  | [] => { status := WaitStatus.waiting, actionRuns := 0, trace := [] }
  | (condition, clock) :: rest =>
    -- while (!(condition)) {
    if condition then { status := WaitStatus.continued, actionRuns := 0, trace := [] }
    -- if (millis() - startTime >= timeout) { action; return; }
    else if usub w clock startTime ≥ timeout then
      { status := WaitStatus.aborted, actionRuns := 1, trace := [Event.millis] }
    -- delay(10); }
    else
      { status := (waitLoop w timeout startTime rest).status
        actionRuns := (waitLoop w timeout startTime rest).actionRuns
        trace := Event.millis :: Event.delay 10 :: (waitLoop w timeout startTime rest).trace }

/-- The macro `WAIT_FOR_CONDITION_WITH_ACTIONS(condition, timeout, action)`.
`startTime` is the value returned by the first `millis()` call. -/
def WAIT_FOR_CONDITION_WITH_ACTIONS (w timeout startTime : Nat)
    (observations : List (Bool × Nat)) : WaitOutcome :=
  -- unsigned long startTime = millis();
  { status := (waitLoop w timeout startTime observations).status
    actionRuns := (waitLoop w timeout startTime observations).actionRuns
    trace := Event.millis :: (waitLoop w timeout startTime observations).trace }

/-! ## Unsigned arithmetic -/

theorem usub_of_le (w a b : Nat) (hab : b ≤ a) (ha : a < 2 ^ w) : usub w a b = a - b := by
  unfold usub
  have h : a + 2 ^ w - b = (a - b) + 2 ^ w := by omega
  rw [h, Nat.add_mod_right, Nat.mod_eq_of_lt (by omega)]

theorem usub_zero (w a : Nat) (ha : a < 2 ^ w) : usub w a 0 = a := by
  simpa using usub_of_le w a 0 (Nat.zero_le a) ha

theorem usub_zero_le (w a : Nat) : usub w a 0 ≤ a := by
  unfold usub
  simp only [Nat.sub_zero, Nat.add_mod_right]
  exact Nat.mod_le a (2 ^ w)

theorem usub_add_mod (w L d : Nat) (hL : L < 2 ^ w) (hd : d < 2 ^ w) :
    usub w ((L + d) % 2 ^ w) L = d := by
  unfold usub
  by_cases h : L + d < 2 ^ w
  · rw [Nat.mod_eq_of_lt h]
    have e : L + d + 2 ^ w - L = d + 2 ^ w := by omega
    rw [e, Nat.add_mod_right, Nat.mod_eq_of_lt hd]
  · have h1 : (L + d) % 2 ^ w = L + d - 2 ^ w := by
      rw [Nat.mod_eq_sub_mod (by omega), Nat.mod_eq_of_lt (by omega)]
    rw [h1]
    have e : L + d - 2 ^ w + 2 ^ w - L = d := by omega
    rw [e, Nat.mod_eq_of_lt hd]

/-- For `b` no larger than `a + 2 ^ w`, in particular for two `unsigned long` values,
`usub` is the integer difference reduced modulo `2 ^ w`. -/
theorem usub_eq_emod (w a b : Nat) (hb : b ≤ a + 2 ^ w) :
    ((usub w a b : Nat) : Int) = ((a : Int) - (b : Int)) % ((2 : Int) ^ w) := by
  unfold usub
  rw [Int.natCast_mod, Nat.cast_sub hb]
  push_cast
  rw [show (a : Int) + 2 ^ w - (b : Int) = ((a : Int) - (b : Int)) + 2 ^ w by ring,
    Int.add_emod_self]

/-! ## One call of `handleButton`, by cases on the pin reading -/

/-- A call that reads the opposite of the active level. -/
theorem handleButton_idle (w : Nat) (level : Bool) (b : Button) (now : Nat)
    (h : level ≠ b.pressed) :
    b.handleButton w level now =
      if b.lastButtonState then
        { ret := false
          button := { b with reportedPress := false, lastPressTime := 0,
                             lastButtonState := false }
          trace := [Event.digitalRead b.BUTTON_PIN, Event.delay 10] }
      else
        { ret := false
          button := b
          trace := [Event.digitalRead b.BUTTON_PIN] } := by
  obtain ⟨pin, L, lbs, p, r⟩ := b
  have hp : (level == p) = false := by simpa using h
  cases lbs <;> simp [Button.handleButton, hp]

/-- A call that reads the active level. -/
theorem handleButton_held (w : Nat) (level : Bool) (b : Button) (now : Nat)
    (h : level = b.pressed) :
    b.handleButton w level now =
      if b.reportedPress && b.lastButtonState then
        if 100 ≤ usub w now b.lastPressTime then
          { ret := true
            button := { b with lastPressTime := now }
            trace := [Event.digitalRead b.BUTTON_PIN] }
        else
          { ret := false
            button := b
            trace := [Event.digitalRead b.BUTTON_PIN] }
      else
        if 600 ≤ usub w now b.lastPressTime then
          { ret := true
            button := { b with reportedPress := true, lastPressTime := now }
            trace := [Event.digitalRead b.BUTTON_PIN, Event.delay 10] }
        else
          { ret := false
            button := { b with reportedPress := false, lastButtonState := true }
            trace := [Event.digitalRead b.BUTTON_PIN] } := by
  obtain ⟨pin, L, lbs, p, r⟩ := b
  have hp : (level == p) = true := by simpa using h
  by_cases h6 : 600 ≤ usub w now L <;> by_cases h1 : 100 ≤ usub w now L <;>
    cases lbs <;> cases r <;> simp [Button.handleButton, hp, h6, h1]

/-! ## Runs of calls -/

theorem returns_nil (w : Nat) (b : Button) : b.returns w [] = [] := rfl

theorem returns_cons (w : Nat) (b : Button) (level : Bool) (t : Nat)
    (rest : List (Bool × Nat)) :
    b.returns w ((level, t) :: rest) =
      (b.handleButton w level t).ret ::
        (b.handleButton w level t).button.returns w rest := rfl

theorem after_append (w : Nat) (b : Button) (xs ys : List (Bool × Nat)) :
    b.after w (xs ++ ys) = (b.after w xs).after w ys := by
  induction xs generalizing b with
  | nil => rfl
  | cons x xs ih =>
    obtain ⟨level, t⟩ := x
    simp only [List.cons_append, Button.after]
    exact ih _

/-- A call that reads the active level while `lastPressTime = 0` and no press is
reported, at a timestamp below 600: it returns false and leaves both as they are. -/
theorem handleButton_held_early (w : Nat) (b : Button) (t : Nat)
    (hL : b.lastPressTime = 0) (hr : b.reportedPress = false) (ht : t < 600) :
    (b.handleButton w b.pressed t).ret = false ∧
      (b.handleButton w b.pressed t).button.lastPressTime = 0 ∧
      (b.handleButton w b.pressed t).button.reportedPress = false ∧
      (b.handleButton w b.pressed t).button.pressed = b.pressed := by
  have h0 : ¬ 600 ≤ usub w t 0 := by
    have := usub_zero_le w t
    omega
  rw [handleButton_held w b.pressed b t rfl]
  simp [hL, hr, h0]

/-- A call that reads the active level while `lastPressTime = 0` and no press is
reported, at a timestamp of at least 600: it returns true. -/
theorem handleButton_held_late (w : Nat) (b : Button) (t : Nat)
    (hL : b.lastPressTime = 0) (hr : b.reportedPress = false) (ht : 600 ≤ t)
    (htw : t < 2 ^ w) :
    (b.handleButton w b.pressed t).ret = true := by
  rw [handleButton_held w b.pressed b t rfl]
  simp [hL, hr, usub_zero w t htw, ht]

/-- From a state with `lastPressTime = 0` and no press reported, in a run of calls that
all read the active level, a call all of whose predecessors have timestamps below 600
returns true exactly when its own timestamp is at least 600. -/
theorem returns_held_from_reset (w : Nat) (ts : List Nat) :
    ∀ (b : Button) (i t : Nat), b.lastPressTime = 0 → b.reportedPress = false →
      ts[i]? = some t → (∀ j x, j < i → ts[j]? = some x → x < 600) → t < 2 ^ w →
      (b.returns w (held b.pressed ts))[i]? = some (decide (600 ≤ t)) := by
  induction ts with
  | nil => intro b i t _ _ hi; simp at hi
  | cons t0 rest ih =>
    intro b i t hL hr hi hpre htw
    cases i with
    | zero =>
      simp only [List.getElem?_cons_zero, Option.some.injEq] at hi
      subst hi
      simp only [held, List.map_cons, returns_cons, List.getElem?_cons_zero,
        Option.some.injEq]
      by_cases ht : 600 ≤ t0
      · simp [ht, handleButton_held_late w b t0 hL hr ht htw]
      · simp [ht, (handleButton_held_early w b t0 hL hr (by omega)).1]
    | succ k =>
      have ht0 : t0 < 600 := hpre 0 t0 (Nat.succ_pos k) (by simp)
      obtain ⟨_, hL1, hr1, hp1⟩ := handleButton_held_early w b t0 hL hr ht0
      simp only [List.getElem?_cons_succ] at hi
      simp only [held, List.map_cons, returns_cons, List.getElem?_cons_succ]
      have := ih (b.handleButton w b.pressed t0).button k t hL1 hr1 hi
        (fun j x hj hx => hpre (j + 1) x (Nat.succ_lt_succ hj) (by simpa using hx)) htw
      rw [hp1] at this
      exact this

/-- A run of calls that all read the opposite of the active level, from a state with
`lastButtonState = false`: every call returns false and leaves the state as it is. -/
theorem run_idle_of_not_last (w : Nat) (ts : List Nat) :
    ∀ b : Button, b.lastButtonState = false →
      (b.run w (idle b.pressed ts)).map (fun o => (o.ret, o.button))
        = List.replicate ts.length (false, b) := by
  induction ts with
  | nil => intro b _; rfl
  | cons t rest ih =>
    intro b hb
    have hne : (!b.pressed) ≠ b.pressed := by cases b.pressed <;> simp
    have hstep : b.handleButton w (!b.pressed) t =
        { ret := false, button := b, trace := [Event.digitalRead b.BUTTON_PIN] } := by
      rw [handleButton_idle w _ b t hne]
      simp [hb]
    simp only [idle, List.map_cons, Button.run, hstep, List.length_cons,
      List.replicate_succ, List.cons.injEq, true_and]
    exact ih b hb

theorem clockReads_append (xs ys : List Event) :
    clockReads (xs ++ ys) = clockReads xs + clockReads ys := by
  simp [clockReads]

theorem pinsRead_append (xs ys : List Event) :
    pinsRead (xs ++ ys) = pinsRead xs ++ pinsRead ys := by
  simp [pinsRead]

/-- One `handleButton` call never reads the clock and reads its own pin exactly once. -/
theorem handleButton_trace (w : Nat) (level : Bool) (b : Button) (now : Nat) :
    clockReads (b.handleButton w level now).trace = 0 ∧
      pinsRead (b.handleButton w level now).trace = [b.BUTTON_PIN] := by
  by_cases h : level = b.pressed
  · rw [handleButton_held w level b now h]
    split_ifs <;> simp [clockReads, pinsRead]
  · rw [handleButton_idle w level b now h]
    split_ifs <;> simp [clockReads, pinsRead]

/-! ## Calls before the first event -/

/-- A call at a timestamp below 600 on a Button with `lastPressTime = 0` and no press
reported, whatever the pin reads: it returns false and leaves both as they are. -/
theorem handleButton_early (w : Nat) (b : Button) (level : Bool) (t : Nat)
    (hL : b.lastPressTime = 0) (hr : b.reportedPress = false) (ht : t < 600) :
    (b.handleButton w level t).ret = false ∧
      (b.handleButton w level t).button.lastPressTime = 0 ∧
      (b.handleButton w level t).button.reportedPress = false := by
  by_cases h : level = b.pressed
  · subst h
    obtain ⟨h1, h2, h3, _⟩ := handleButton_held_early w b t hL hr ht
    exact ⟨h1, h2, h3⟩
  · rw [handleButton_idle w level b t h]
    cases hs : b.lastButtonState <;> simp [hL, hr]

/-- A run of calls at timestamps below 600 from a state with `lastPressTime = 0` and no
press reported: no call returns true and both members keep their values. -/
theorem run_early (w : Nat) (calls : List (Bool × Nat)) :
    ∀ b : Button, b.lastPressTime = 0 → b.reportedPress = false →
      (∀ c ∈ calls, c.2 < 600) →
      ∀ o ∈ b.run w calls,
        o.ret = false ∧ o.button.lastPressTime = 0 ∧ o.button.reportedPress = false := by
  induction calls with
  | nil => intro b _ _ _ o ho; simp [Button.run] at ho
  | cons c rest ih =>
    intro b hL hr hts o ho
    obtain ⟨level, t⟩ := c
    have ht : t < 600 := hts (level, t) (List.mem_cons_self _ _)
    have hstep := handleButton_early w b level t hL hr ht
    simp only [Button.run, List.mem_cons] at ho
    rcases ho with ho | ho
    · rw [ho]; exact hstep
    · exact ih _ hstep.2.1 hstep.2.2
        (fun c hc => hts c (List.mem_cons_of_mem _ hc)) o ho

/-! ## The throttle `EXECUTE_EVERY` -/

/-- In one `EXECUTE_EVERY` expansion every execution is at least `interval` after the
previous one, and the first one at least `interval` after the initial value of
`lastExecutionTime`, in unsigned arithmetic. -/
theorem executions_chain (w interval : Nat) (ts : List Nat) :
    ∀ last : Nat,
      List.Chain (fun t1 t2 => interval ≤ usub w t2 t1) last
        (executions w interval last ts) := by
  induction ts with
  | nil => intro last; exact List.Chain.nil
  | cons now rest ih =>
    intro last
    by_cases h : interval ≤ usub w now last
    · have e : EXECUTE_EVERY w interval last now = (true, now) := by
        simp [EXECUTE_EVERY, h]
      simp only [executions, e, if_true]
      exact List.Chain.cons h (ih now)
    · have e : EXECUTE_EVERY w interval last now = (false, last) := by
        simp [EXECUTE_EVERY, h]
      simp only [executions, e]
      exact ih last

/-- The executions of a run are the clock values of the passes in which `block` ran. -/
theorem executions_eq_filter (w interval : Nat) (ts : List Nat) :
    ∀ last : Nat,
      executions w interval last ts
        = ((ts.zip (throttleRun w interval last ts)).filter (fun p => p.2)).map Prod.fst := by
  induction ts with
  | nil => intro last; rfl
  | cons now rest ih =>
    intro last
    cases h : (EXECUTE_EVERY w interval last now).1 <;>
      simp [executions, throttleRun, h, ih]

/-- In a program with several expansions, the passes through one expansion behave as
if that expansion ran alone on its own passes. -/
theorem sitesRun_filter (w : Nat) (interval : Nat → Nat) (site : Nat)
    (calls : List (Nat × Nat)) :
    ∀ last : Nat → Nat,
      ((sitesRun w interval last calls).filter (fun p => decide (p.1 = site))).map Prod.snd
        = throttleRun w (interval site) (last site)
            ((calls.filter (fun c => decide (c.1 = site))).map Prod.snd) := by
  induction calls with
  | nil => intro last; rfl
  | cons c rest ih =>
    intro last
    obtain ⟨s, now⟩ := c
    by_cases hs : s = site
    · subst hs
      simp only [sitesRun, List.filter_cons, decide_True, if_true, List.map_cons,
        throttleRun, ih, Function.update_same]
    · have hne : site ≠ s := fun h => hs h.symm
      simp only [sitesRun, List.filter_cons, hs, decide_False, Bool.false_eq_true,
        if_false, ih, Function.update_noteq hne]

/-! ## The deadline wait `WAIT_FOR_CONDITION_WITH_ACTIONS` -/

/-- The loop leaves through `action; return;` exactly when some iteration finds the
condition false and the deadline reached, with no earlier iteration finding the
condition true. -/
theorem waitLoop_aborted_iff (w timeout start : Nat) (obs : List (Bool × Nat)) :
    (waitLoop w timeout start obs).status = WaitStatus.aborted ↔
      ∃ (i c : Nat), obs[i]? = some (false, c) ∧ timeout ≤ usub w c start ∧
        ∀ (j : Nat) (o : Bool × Nat), j < i → obs[j]? = some o → o.1 = false := by
  induction obs with
  | nil => simp [waitLoop]
  | cons o rest ih =>
    obtain ⟨cond, clock⟩ := o
    cases cond with
    | true =>
      constructor
      · intro h
        simp [waitLoop] at h
      · rintro ⟨i, c, hi, _, hpre⟩
        cases i with
        | zero => simp at hi
        | succ k =>
          have := hpre 0 (true, clock) (Nat.succ_pos k) (by simp)
          simp at this
    | false =>
      by_cases he : timeout ≤ usub w clock start
      · constructor
        · intro _
          exact ⟨0, clock, by simp, he, fun j o hj => by omega⟩
        · intro _
          simp [waitLoop, he]
      · have hs : (waitLoop w timeout start ((false, clock) :: rest)).status
            = (waitLoop w timeout start rest).status := by
          simp [waitLoop, he]
        rw [hs, ih]
        constructor
        · rintro ⟨i, c, hi, hc, hpre⟩
          refine ⟨i + 1, c, by simpa using hi, hc, ?_⟩
          intro j o hj hjo
          cases j with
          | zero =>
            simp at hjo
            rw [← hjo]
          | succ k =>
            exact hpre k o (by omega) (by simpa using hjo)
        · rintro ⟨i, c, hi, hc, hpre⟩
          cases i with
          | zero =>
            simp at hi
            rw [hi] at he
            exact absurd hc he
          | succ k =>
            refine ⟨k, c, by simpa using hi, hc, ?_⟩
            intro j o hj hjo
            exact hpre (j + 1) o (by omega) (by simpa using hjo)

/-- The loop is left with the condition true exactly when some iteration finds the
condition true, with every earlier iteration finding it false and the deadline not
reached. -/
theorem waitLoop_continued_iff (w timeout start : Nat) (obs : List (Bool × Nat)) :
    (waitLoop w timeout start obs).status = WaitStatus.continued ↔
      ∃ (i c : Nat), obs[i]? = some (true, c) ∧
        ∀ (j : Nat) (o : Bool × Nat), j < i → obs[j]? = some o →
          o.1 = false ∧ usub w o.2 start < timeout := by
  induction obs with
  | nil => simp [waitLoop]
  | cons o rest ih =>
    obtain ⟨cond, clock⟩ := o
    cases cond with
    | true =>
      constructor
      · intro _
        exact ⟨0, clock, by simp, fun j o hj => by omega⟩
      · intro _
        simp [waitLoop]
    | false =>
      by_cases he : timeout ≤ usub w clock start
      · constructor
        · intro h
          simp [waitLoop, he] at h
        · rintro ⟨i, c, hi, hpre⟩
          cases i with
          | zero => simp at hi
          | succ k =>
            have := (hpre 0 (false, clock) (Nat.succ_pos k) (by simp)).2
            simp only at this
            omega
      · have hs : (waitLoop w timeout start ((false, clock) :: rest)).status
            = (waitLoop w timeout start rest).status := by
          simp [waitLoop, he]
        rw [hs, ih]
        constructor
        · rintro ⟨i, c, hi, hpre⟩
          refine ⟨i + 1, c, by simpa using hi, ?_⟩
          intro j o hj hjo
          cases j with
          | zero =>
            simp at hjo
            rw [← hjo]
            exact ⟨rfl, by simp only; omega⟩
          | succ k =>
            exact hpre k o (by omega) (by simpa using hjo)
        · rintro ⟨i, c, hi, hpre⟩
          cases i with
          | zero => simp at hi
          | succ k =>
            refine ⟨k, c, by simpa using hi, ?_⟩
            intro j o hj hjo
            exact hpre (j + 1) o (by omega) (by simpa using hjo)

/-- The action runs once when the loop is left through `action; return;` and not at
all otherwise. -/
theorem waitLoop_actionRuns (w timeout start : Nat) (obs : List (Bool × Nat)) :
    (waitLoop w timeout start obs).actionRuns
      = if (waitLoop w timeout start obs).status = WaitStatus.aborted then 1 else 0 := by
  induction obs with
  | nil => simp [waitLoop]
  | cons o rest ih =>
    obtain ⟨cond, clock⟩ := o
    cases cond with
    | true => simp [waitLoop]
    | false =>
      by_cases he : timeout ≤ usub w clock start
      · simp [waitLoop, he]
      · simpa [waitLoop, he] using ih

/-- The loop is still running after the given iterations exactly when every one of them
found the condition false and the deadline not reached. -/
theorem waitLoop_waiting_iff (w timeout start : Nat) (obs : List (Bool × Nat)) :
    (waitLoop w timeout start obs).status = WaitStatus.waiting ↔
      ∀ o ∈ obs, o.1 = false ∧ usub w o.2 start < timeout := by
  induction obs with
  | nil => simp [waitLoop]
  | cons o rest ih =>
    obtain ⟨cond, clock⟩ := o
    cases cond with
    | true => simp [waitLoop]
    | false =>
      by_cases he : timeout ≤ usub w clock start
      · simp [waitLoop, he]
      · have hs : (waitLoop w timeout start ((false, clock) :: rest)).status
            = (waitLoop w timeout start rest).status := by
          simp [waitLoop, he]
        rw [hs, ih]
        simp only [List.mem_cons, forall_eq_or_imp, true_and]
        constructor
        · intro h
          exact ⟨by omega, h⟩
        · intro h
          exact h.2

/-! ## Properties of the specification -/

/-- C1 (as amended): starting from a freshly constructed Button, in every sequence of
handleButton calls that all read the pin at its active level, a call all of whose
predecessors have timestamps below 600 returns false when its own timestamp is below
600 and true when its own timestamp is at least 600; so every call before the first
call with a timestamp of at least 600 returns false and that first call returns true. -/
theorem C1_first_press_from_boot (w : Nat) (pin : Int) (pressed : Bool) (ts : List Nat)
    (i t : Nat) (hi : ts[i]? = some t)
    (hpre : ∀ j x, j < i → ts[j]? = some x → x < 600) (htw : t < 2 ^ w) :
    ((Button.new pin pressed).returns w (held pressed ts))[i]? = some (decide (600 ≤ t)) :=
  returns_held_from_reset w ts (Button.new pin pressed) i t rfl rfl hi hpre htw

/-- C1 (witness): the run 0, 300, 600, 700 at width 32, at its third call. -/
theorem C1_first_press_from_boot_witness :
    ([0, 300, 600, 700] : List Nat)[2]? = some 600 ∧ 600 < 2 ^ 32 ∧
      ((Button.new 2 HIGH).returns 32 (held HIGH [0, 300, 600, 700]))[2]?
        = some (decide (600 ≤ 600)) :=
  ⟨by decide, by decide,
    C1_first_press_from_boot 32 2 HIGH [0, 300, 600, 700] 2 600 (by decide)
      (by
        intro j x hj hx
        interval_cases j
        · simp at hx; omega
        · simp at hx; omega)
      (by decide)⟩

/-- C1 (counterexample): with a 32-bit clock and the pin held at its active level, the
calls at timestamps 0, 600, 4294967000 and then 500 (the clock having wrapped) return
false, true, true, true: the last call has a timestamp below 600 and returns true. -/
theorem C1_counterexample :
    (500 : Nat) < 600 ∧
      (Button.new 2 HIGH).returns 32 (held HIGH [0, 600, 4294967000, 500])
        = [false, true, true, true] := by
  decide

/-- C4: starting from a freshly constructed Button, in every sequence of handleButton
calls that all read the pin as not pressed, every call returns false and leaves the
Button in its initial state, whose lastPressTime is 0. -/
theorem C4_never_pressed (w : Nat) (pin : Int) (pressed : Bool) (ts : List Nat) :
    ((Button.new pin pressed).run w (idle pressed ts)).map (fun o => (o.ret, o.button))
        = List.replicate ts.length (false, Button.new pin pressed) ∧
      ((Button.new pin pressed).run w (idle pressed ts)).map
          (fun o => o.button.lastPressTime)
        = List.replicate ts.length 0 := by
  have h := run_idle_of_not_last w ts (Button.new pin pressed) rfl
  refine ⟨h, ?_⟩
  have h2 := congrArg (List.map (fun p : Bool × Button => p.2.lastPressTime)) h
  simpa [List.map_map, Function.comp_def, Button.new] using h2

/-- C5 (as amended): a handleButton call that reads the pin as not pressed leaves
lastPressTime unchanged when lastButtonState is false on entry, and sets it to 0 when
lastButtonState is true on entry (the release reset). -/
theorem C5_idle_poll_event_time (w : Nat) (b : Button) (level : Bool) (now : Nat)
    (hl : level ≠ b.pressed) :
    (b.handleButton w level now).button.lastPressTime
      = if b.lastButtonState then 0 else b.lastPressTime := by
  rw [handleButton_idle w level b now hl]
  cases b.lastButtonState <;> simp

/-- C5 (witness): the release at 700 after the event at 600. -/
theorem C5_idle_poll_event_time_witness :
    LOW ≠ ((Button.new 2 HIGH).after 32 (held HIGH [0, 600])).pressed ∧
      (((Button.new 2 HIGH).after 32 (held HIGH [0, 600])).handleButton 32 LOW
          700).button.lastPressTime
        = if ((Button.new 2 HIGH).after 32 (held HIGH [0, 600])).lastButtonState then 0
          else ((Button.new 2 HIGH).after 32 (held HIGH [0, 600])).lastPressTime :=
  ⟨by decide,
    C5_idle_poll_event_time 32 ((Button.new 2 HIGH).after 32 (held HIGH [0, 600])) LOW 700
      (by decide)⟩

/-- C5 (counterexample): after the calls at 0 and 600 that read pressed, lastPressTime
is 600; the call at 700 that reads not pressed leaves it at 0. -/
theorem C5_counterexample :
    ((Button.new 2 HIGH).after 32 [(HIGH, 0), (HIGH, 600)]).lastPressTime = 600 ∧
      ((Button.new 2 HIGH).after 32 [(HIGH, 0), (HIGH, 600), (LOW, 700)]).lastPressTime
        = 0 := by
  decide

/-- C6 (the code at the failing input): from a freshly constructed Button, the call at
600 reads pressed and returns true without updating lastButtonState; the call at 700
reads not pressed, detects no release, and reportedPress is still true after it. -/
theorem C6_reported_after_idle_poll :
    (Button.new 2 HIGH).returns 32 [(HIGH, 600), (LOW, 700)] = [true, false] ∧
      ((Button.new 2 HIGH).after 32 [(HIGH, 600), (LOW, 700)]).reportedPress = true ∧
      (LOW == ((Button.new 2 HIGH).after 32 [(HIGH, 600)]).pressed) = false := by
  decide

/-- C7: handleButtons reads the clock once, then calls handleButton once on buttonOne,
buttonTwo, buttonThree and buttonTop, in that order and each with that clock value;
the fields of the returned Input are the values returned by the respective calls and
every button's new state is the one its own call produced. -/
theorem C7_snapshot_assembly (w clock : Nat) (lv : Levels) (h : ButtonHandler) :
    (h.handleButtons w clock lv).input =
        { buttonOnePressed := (h.buttonOne.handleButton w lv.one clock).ret
          buttonTwoPressed := (h.buttonTwo.handleButton w lv.two clock).ret
          buttonThreePressed := (h.buttonThree.handleButton w lv.three clock).ret
          buttonTopPressed := (h.buttonTop.handleButton w lv.top clock).ret } ∧
      (h.handleButtons w clock lv).handler =
        { buttonOne := (h.buttonOne.handleButton w lv.one clock).button
          buttonTwo := (h.buttonTwo.handleButton w lv.two clock).button
          buttonThree := (h.buttonThree.handleButton w lv.three clock).button
          buttonTop := (h.buttonTop.handleButton w lv.top clock).button } ∧
      (h.handleButtons w clock lv).trace =
        Event.millis ::
          ((h.buttonOne.handleButton w lv.one clock).trace ++
            (h.buttonTwo.handleButton w lv.two clock).trace ++
            (h.buttonThree.handleButton w lv.three clock).trace ++
            (h.buttonTop.handleButton w lv.top clock).trace) ∧
      clockReads (h.handleButtons w clock lv).trace = 1 ∧
      pinsRead (h.handleButtons w clock lv).trace =
        [h.buttonOne.BUTTON_PIN, h.buttonTwo.BUTTON_PIN, h.buttonThree.BUTTON_PIN,
          h.buttonTop.BUTTON_PIN] := by
  refine ⟨rfl, rfl, rfl, ?_, ?_⟩
  · have e : ∀ es : List Event, clockReads (Event.millis :: es) = clockReads es + 1 := by
      intro es; simp [clockReads]
    simp only [ButtonHandler.handleButtons, e, clockReads_append,
      (handleButton_trace w _ _ clock).1]
  · have e : ∀ es : List Event, pinsRead (Event.millis :: es) = pinsRead es := by
      intro es; simp [pinsRead]
    simp only [ButtonHandler.handleButtons, e, pinsRead_append,
      (handleButton_trace w _ _ clock).2, List.cons_append, List.nil_append]

/-- C8: for two handleButtons calls with the same clock value whose handlers agree on
one button and whose pin readings agree for that button, the Input field of that
button and the state of that button after the call are the same in both, whatever
the other three buttons and their pin readings are. -/
theorem C8_aggregator_independence (w clock : Nat) (k : Which) (lv lv2 : Levels)
    (h h2 : ButtonHandler) (hb : h.button k = h2.button k)
    (hlv : lv.level k = lv2.level k) :
    (h.handleButtons w clock lv).input.field k
        = (h2.handleButtons w clock lv2).input.field k ∧
      (h.handleButtons w clock lv).handler.button k
        = (h2.handleButtons w clock lv2).handler.button k := by
  cases k <;>
    simp only [ButtonHandler.button, Levels.level] at hb hlv <;>
    simp [ButtonHandler.handleButtons, Input.field, ButtonHandler.button, hb, hlv]

/-- C8 (witness): two handlers that agree on buttonTwo only, polled at 700 with
readings that agree on buttonTwo only. -/
theorem C8_aggregator_independence_witness :
    (ButtonHandler.new 2 3 4 5).button Which.two
        = (ButtonHandler.new 6 3 7 8).button Which.two ∧
      (Levels.mk LOW HIGH LOW LOW).level Which.two
        = (Levels.mk HIGH HIGH HIGH HIGH).level Which.two ∧
      ((ButtonHandler.new 2 3 4 5).handleButtons 32 700
          (Levels.mk LOW HIGH LOW LOW)).input.field Which.two
        = ((ButtonHandler.new 6 3 7 8).handleButtons 32 700
          (Levels.mk HIGH HIGH HIGH HIGH)).input.field Which.two ∧
      ((ButtonHandler.new 2 3 4 5).handleButtons 32 700
          (Levels.mk LOW HIGH LOW LOW)).handler.button Which.two
        = ((ButtonHandler.new 6 3 7 8).handleButtons 32 700
          (Levels.mk HIGH HIGH HIGH HIGH)).handler.button Which.two :=
  ⟨by decide, by decide,
    C8_aggregator_independence 32 700 Which.two (Levels.mk LOW HIGH LOW LOW)
      (Levels.mk HIGH HIGH HIGH HIGH) (ButtonHandler.new 2 3 4 5)
      (ButtonHandler.new 6 3 7 8) (by decide) (by decide)⟩

/-- C9: for a Button whose lastPressTime is L and every d below 2^w, a handleButton
call that reads pressed at timestamp (L + d) mod 2^w returns true exactly when
d >= 100 if reportedPress and lastButtonState are both true, and exactly when
d >= 600 if reportedPress is false (or lastButtonState is false), also when L + d
overflows 2^w. -/
theorem C9_wraparound_elapsed (w : Nat) (b : Button) (level : Bool) (d : Nat)
    (hl : level = b.pressed) (hL : b.lastPressTime < 2 ^ w) (hd : d < 2 ^ w) :
    (b.handleButton w level ((b.lastPressTime + d) % 2 ^ w)).ret =
      if b.reportedPress && b.lastButtonState then decide (100 ≤ d)
      else decide (600 ≤ d) := by
  rw [handleButton_held w level b _ hl, usub_add_mod w b.lastPressTime d hL hd]
  split_ifs <;> simp_all

/-- C9 (witness): a 32-bit clock, lastPressTime 4294967290 and d = 100, where the
timestamp wraps to 94. -/
theorem C9_wraparound_elapsed_witness :
    (4294967290 + 100) % 2 ^ 32 = 94 ∧
      ((Button.mk 2 4294967290 true HIGH true).handleButton 32 HIGH
          (((Button.mk 2 4294967290 true HIGH true).lastPressTime + 100) % 2 ^ 32)).ret =
        if (Button.mk 2 4294967290 true HIGH true).reportedPress
            && (Button.mk 2 4294967290 true HIGH true).lastButtonState
        then decide (100 ≤ 100) else decide (600 ≤ 100) :=
  ⟨by decide,
    C9_wraparound_elapsed 32 (Button.mk 2 4294967290 true HIGH true) HIGH 100 rfl
      (by decide) (by decide)⟩

/-- C10: starting from a freshly constructed Button with the pin read at its active
level on every call, handleButton called at timestamps 0, 600, 650, 700, 800 returns
false, true, false, true, true. -/
theorem C10_boundary_scenario (w : Nat) (pin : Int) (pressed : Bool) (hw : 800 < 2 ^ w) :
    (Button.new pin pressed).returns w (held pressed [0, 600, 650, 700, 800])
      = [false, true, false, true, true] := by
  have e0 : usub w 0 0 = 0 := usub_of_le w 0 0 (by omega) (by omega)
  have e1 : usub w 600 0 = 600 := usub_of_le w 600 0 (by omega) (by omega)
  have e2 : usub w 650 600 = 50 := usub_of_le w 650 600 (by omega) (by omega)
  have e3 : usub w 700 600 = 100 := usub_of_le w 700 600 (by omega) (by omega)
  have e4 : usub w 800 700 = 100 := usub_of_le w 800 700 (by omega) (by omega)
  simp [held, returns_cons, returns_nil, handleButton_held, Button.new, LOW, e0, e1, e2,
    e3, e4]

/-- C10 (witness): the scenario with a 32-bit clock. -/
theorem C10_boundary_scenario_witness :
    800 < 2 ^ 32 ∧
      (Button.new 2 HIGH).returns 32 (held HIGH [0, 600, 650, 700, 800])
        = [false, true, false, true, true] :=
  ⟨by decide, C10_boundary_scenario 32 2 HIGH (by decide)⟩

/-- C11: one EXECUTE_EVERY call site is a step on its lastExecutionTime: the block runs
exactly when (now - lastExecutionTime) mod 2^w >= interval, lastExecutionTime becomes
now when it runs and is unchanged otherwise; for every sequence of passes from
lastExecutionTime = 0, every execution is at least interval after the previous one
(the first after 0) in that arithmetic; and in a program with several call sites the
passes through one site run as if that site were alone. -/
theorem C11_throttle (w interval last now : Nat) (ts : List Nat)
    (intervals lasts : Nat → Nat) (calls : List (Nat × Nat)) (site : Nat) :
    ((EXECUTE_EVERY w interval last now).1 = true ↔ interval ≤ usub w now last) ∧
      (EXECUTE_EVERY w interval last now).2
        = (if (EXECUTE_EVERY w interval last now).1 then now else last) ∧
      List.Chain (fun t1 t2 => interval ≤ usub w t2 t1) 0 (executions w interval 0 ts) ∧
      executions w interval 0 ts
        = ((ts.zip (throttleRun w interval 0 ts)).filter (fun p => p.2)).map Prod.fst ∧
      ((sitesRun w intervals lasts calls).filter (fun p => decide (p.1 = site))).map
          Prod.snd
        = throttleRun w (intervals site) (lasts site)
            ((calls.filter (fun c => decide (c.1 = site))).map Prod.snd) := by
  refine ⟨?_, ?_, executions_chain w interval ts 0, executions_eq_filter w interval ts 0,
    sitesRun_filter w intervals site calls lasts⟩
  · by_cases h : interval ≤ usub w now last <;> simp [EXECUTE_EVERY, h]
  · by_cases h : interval ≤ usub w now last <;> simp [EXECUTE_EVERY, h]

/-- C12 (as amended): over a sequence of observations (condition value, clock reading),
with the start time read on entry and the condition tested before the deadline in
every iteration: the action runs, exactly once, and the routine is left through
`return` exactly when some iteration observes the condition false with
(clock - start) mod 2^w >= timeout before any iteration observes the condition true;
otherwise the action never runs; the routine goes on past the wait exactly when some
iteration observes the condition true before any iteration observes the deadline
reached; and while every iteration observes the condition false and the deadline not
reached, the loop is still running.  If the condition holds on entry the action does
not run, also for timeout = 0; if it does not hold and timeout = 0, the action runs in
the first iteration without any delay. -/
theorem C12_deadline_wait (w timeout start : Nat) (obs : List (Bool × Nat)) (c : Nat)
    (rest : List (Bool × Nat)) :
    ((WAIT_FOR_CONDITION_WITH_ACTIONS w timeout start obs).status = WaitStatus.aborted ↔
        ∃ (i c : Nat), obs[i]? = some (false, c) ∧ timeout ≤ usub w c start ∧
          ∀ (j : Nat) (o : Bool × Nat), j < i → obs[j]? = some o → o.1 = false) ∧
      (WAIT_FOR_CONDITION_WITH_ACTIONS w timeout start obs).actionRuns
        = (if (WAIT_FOR_CONDITION_WITH_ACTIONS w timeout start obs).status
              = WaitStatus.aborted then 1 else 0) ∧
      ((WAIT_FOR_CONDITION_WITH_ACTIONS w timeout start obs).status = WaitStatus.continued ↔
        ∃ (i c : Nat), obs[i]? = some (true, c) ∧
          ∀ (j : Nat) (o : Bool × Nat), j < i → obs[j]? = some o →
            o.1 = false ∧ usub w o.2 start < timeout) ∧
      ((WAIT_FOR_CONDITION_WITH_ACTIONS w timeout start obs).status = WaitStatus.waiting ↔
        ∀ o ∈ obs, o.1 = false ∧ usub w o.2 start < timeout) ∧
      ((WAIT_FOR_CONDITION_WITH_ACTIONS w timeout start ((true, c) :: rest)).status
          = WaitStatus.continued ∧
        (WAIT_FOR_CONDITION_WITH_ACTIONS w timeout start ((true, c) :: rest)).actionRuns
          = 0) ∧
      ((WAIT_FOR_CONDITION_WITH_ACTIONS w 0 start ((false, c) :: rest)).status
          = WaitStatus.aborted ∧
        (WAIT_FOR_CONDITION_WITH_ACTIONS w 0 start ((false, c) :: rest)).actionRuns = 1 ∧
        delayed (WAIT_FOR_CONDITION_WITH_ACTIONS w 0 start ((false, c) :: rest)).trace
          = 0) := by
  refine ⟨waitLoop_aborted_iff w timeout start obs, waitLoop_actionRuns w timeout start obs,
    waitLoop_continued_iff w timeout start obs, waitLoop_waiting_iff w timeout start obs,
    ?_, ?_⟩
  · simp [WAIT_FOR_CONDITION_WITH_ACTIONS, waitLoop]
  · simp [WAIT_FOR_CONDITION_WITH_ACTIONS, waitLoop, delayed]

/-- C12 (counterexample): with a 32-bit clock, start time 0 and timeout 4294967295, a
condition that stays false and a clock that advances by 10 ms per iteration: no
iteration observes the deadline reached, and after any number of iterations the
action has not run and the loop is still running, so the routine does not go on. -/
theorem C12_counterexample :
    (WAIT_FOR_CONDITION_WITH_ACTIONS 32 4294967295 0
        [(false, 0), (false, 10), (false, 20)]).status = WaitStatus.waiting ∧
      ∀ n : Nat,
        (WAIT_FOR_CONDITION_WITH_ACTIONS 32 4294967295 0
          ((List.range n).map (fun k => (false, (10 * k) % 2 ^ 32)))).status
          = WaitStatus.waiting := by
  refine ⟨by decide, fun n => ?_⟩
  refine (waitLoop_waiting_iff 32 4294967295 0 _).mpr ?_
  intro o ho
  simp only [List.mem_map, List.mem_range] at ho
  obtain ⟨k, _, rfl⟩ := ho
  refine ⟨rfl, ?_⟩
  simp only [usub]
  norm_num
  omega

/-- C13: for every Button state, pin level and timestamp, handleButton returns true
exactly when the pin is read as pressed and either reportedPress and lastButtonState
are both true and (now - lastPressTime) mod 2^w >= 100, or they are not both true and
(now - lastPressTime) mod 2^w >= 600; a call that reads not-pressed returns false. -/
theorem C13_return_value (w : Nat) (b : Button) (level : Bool) (now : Nat) :
    ((b.handleButton w level now).ret = true ↔
        level = b.pressed ∧
          ((b.reportedPress = true ∧ b.lastButtonState = true ∧
              100 ≤ usub w now b.lastPressTime) ∨
            (¬ (b.reportedPress = true ∧ b.lastButtonState = true) ∧
              600 ≤ usub w now b.lastPressTime))) ∧
      (b.handleButton w (!b.pressed) now).ret = false := by
  have hne : (!b.pressed) ≠ b.pressed := by cases b.pressed <;> simp
  refine ⟨?_, by rw [handleButton_idle w _ b now hne]; split_ifs <;> rfl⟩
  by_cases h : level = b.pressed
  · rw [handleButton_held w level b now h]
    cases hr : b.reportedPress <;> cases hs : b.lastButtonState <;>
      by_cases h6 : 600 ≤ usub w now b.lastPressTime <;>
      by_cases h1 : 100 ≤ usub w now b.lastPressTime <;>
      simp [h, h6, h1]
  · rw [handleButton_idle w level b now h]
    split_ifs <;> simp [h]

/-- C14: a handleButton call that returns true leaves lastButtonState unchanged and
ends with lastPressTime = now and reportedPress = true; a call that returns false ends
with lastButtonState equal to whether the pin was read as pressed in that call. -/
theorem C14_state_per_outcome (w : Nat) (b : Button) (level : Bool) (now : Nat) :
    ((b.handleButton w level now).ret = true →
        (b.handleButton w level now).button.lastButtonState = b.lastButtonState ∧
          (b.handleButton w level now).button.lastPressTime = now ∧
          (b.handleButton w level now).button.reportedPress = true) ∧
      ((b.handleButton w level now).ret = false →
        (b.handleButton w level now).button.lastButtonState = (level == b.pressed)) := by
  by_cases h : level = b.pressed
  · rw [handleButton_held w level b now h]
    cases hr : b.reportedPress <;> cases hs : b.lastButtonState <;>
      by_cases h6 : 600 ≤ usub w now b.lastPressTime <;>
      by_cases h1 : 100 ≤ usub w now b.lastPressTime <;>
      simp [h, h6, h1, hr, hs]
  · have hp : (level == b.pressed) = false := by simpa using h
    rw [handleButton_idle w level b now h]
    cases hs : b.lastButtonState <;> simp [hp, hs]

/-- C14 (witness): on a freshly constructed Button, the call at 600 that reads pressed
returns true, and the call at 5 that reads pressed returns false. -/
theorem C14_state_per_outcome_witness :
    ((Button.new 2 HIGH).handleButton 32 HIGH 600).ret = true ∧
      ((Button.new 2 HIGH).handleButton 32 HIGH 600).button.lastButtonState
        = (Button.new 2 HIGH).lastButtonState ∧
      ((Button.new 2 HIGH).handleButton 32 HIGH 600).button.lastPressTime = 600 ∧
      ((Button.new 2 HIGH).handleButton 32 HIGH 600).button.reportedPress = true ∧
      ((Button.new 2 HIGH).handleButton 32 HIGH 5).ret = false ∧
      ((Button.new 2 HIGH).handleButton 32 HIGH 5).button.lastButtonState
        = (HIGH == (Button.new 2 HIGH).pressed) :=
  ⟨by decide, ((C14_state_per_outcome 32 (Button.new 2 HIGH) HIGH 600).1 (by decide)).1,
    ((C14_state_per_outcome 32 (Button.new 2 HIGH) HIGH 600).1 (by decide)).2.1,
    ((C14_state_per_outcome 32 (Button.new 2 HIGH) HIGH 600).1 (by decide)).2.2,
    by decide, (C14_state_per_outcome 32 (Button.new 2 HIGH) HIGH 5).2 (by decide)⟩

/-- C15: in the run from a freshly constructed Button in which the pin reads pressed
at 1000 and at 1100, the first call returns true and leaves reportedPress = true and
lastButtonState = false; the next call, 100 ms later, clears reportedPress and returns
false. -/
theorem C15_rising_edge_redetected :
    (Button.new 2 HIGH).returns 32 (held HIGH [1000, 1100]) = [true, false] ∧
      ((Button.new 2 HIGH).after 32 (held HIGH [1000])).reportedPress = true ∧
      ((Button.new 2 HIGH).after 32 (held HIGH [1000])).lastButtonState = false ∧
      ((Button.new 2 HIGH).after 32 (held HIGH [1000, 1100])).reportedPress = false ∧
      100 ≤ usub 32 1100 ((Button.new 2 HIGH).after 32 (held HIGH [1000])).lastPressTime := by
  decide

/-- C16: for every Button state with lastButtonState = true, a handleButton call that
reads not-pressed returns false and ends with reportedPress = false, lastPressTime = 0
and lastButtonState = false, having called delay(10) exactly once. -/
theorem C16_falling_edge (w : Nat) (b : Button) (level : Bool) (now : Nat)
    (hs : b.lastButtonState = true) (hl : level ≠ b.pressed) :
    (b.handleButton w level now).ret = false ∧
      (b.handleButton w level now).button.reportedPress = false ∧
      (b.handleButton w level now).button.lastPressTime = 0 ∧
      (b.handleButton w level now).button.lastButtonState = false ∧
      (b.handleButton w level now).trace
        = [Event.digitalRead b.BUTTON_PIN, Event.delay 10] := by
  rw [handleButton_idle w level b now hl]
  simp [hs]

/-- C16 (witness): the release at 900 of a Button that auto-repeated at 700. -/
theorem C16_falling_edge_witness :
    ((Button.new 2 HIGH).after 32 (held HIGH [0, 600, 700])).lastButtonState = true ∧
      LOW ≠ ((Button.new 2 HIGH).after 32 (held HIGH [0, 600, 700])).pressed ∧
      (((Button.new 2 HIGH).after 32 (held HIGH [0, 600, 700])).handleButton 32 LOW
          900).trace = [Event.digitalRead 2, Event.delay 10] :=
  ⟨by decide, by decide,
    (C16_falling_edge 32 ((Button.new 2 HIGH).after 32 (held HIGH [0, 600, 700])) LOW 900
      (by decide) (by decide)).2.2.2.2⟩

/-- C17: with delay(10) counted in milliseconds, a single handleButton call delays for
10 ms when it detects a falling edge (reads not-pressed with lastButtonState true) or
returns true with reportedPress false at the decision (the first-event branch), and
for 0 ms in every other case, auto-repeat returns included; no call delays for more
than 10 ms. -/
theorem C17_settle_delay (w : Nat) (b : Button) (level : Bool) (now : Nat) :
    delayed (b.handleButton w level now).trace =
        (if (!(level == b.pressed) && b.lastButtonState) ||
            ((b.handleButton w level now).ret &&
              !(b.reportedPress && b.lastButtonState))
          then 10 else 0) ∧
      delayed (b.handleButton w level now).trace ≤ 10 := by
  by_cases h : level = b.pressed
  · have hp : (level == b.pressed) = true := by simpa using h
    rw [handleButton_held w level b now h]
    cases hr : b.reportedPress <;> cases hs : b.lastButtonState <;>
      by_cases h6 : 600 ≤ usub w now b.lastPressTime <;>
      by_cases h1 : 100 ≤ usub w now b.lastPressTime <;>
      simp [hp, h6, h1, delayed]
  · have hp : (level == b.pressed) = false := by simpa using h
    rw [handleButton_idle w level b now h]
    cases hs : b.lastButtonState <;> simp [hp, delayed]

/-- C18: for every Button state and timestamps t1, t2, two consecutive handleButton
calls that both read not-pressed leave the Button in the state the first call alone
leaves it, and the second call returns false and does not delay. -/
theorem C18_idempotent_idle_poll (w : Nat) (b : Button) (level1 level2 : Bool)
    (t1 t2 : Nat) (h1 : level1 ≠ b.pressed) (h2 : level2 ≠ b.pressed) :
    ((b.handleButton w level1 t1).button.handleButton w level2 t2).button
        = (b.handleButton w level1 t1).button ∧
      ((b.handleButton w level1 t1).button.handleButton w level2 t2).ret = false ∧
      delayed ((b.handleButton w level1 t1).button.handleButton w level2 t2).trace = 0 := by
  have hb : (b.handleButton w level1 t1).button.pressed = b.pressed ∧
      (b.handleButton w level1 t1).button.lastButtonState = false := by
    rw [handleButton_idle w level1 b t1 h1]
    cases hs : b.lastButtonState <;> simp [hs]
  have h2' : level2 ≠ (b.handleButton w level1 t1).button.pressed := by
    rw [hb.1]; exact h2
  rw [handleButton_idle w level2 _ t2 h2']
  simp [hb.2, delayed]

/-- C18 (witness): a release at 900 followed by another not-pressed poll at 950. -/
theorem C18_idempotent_idle_poll_witness :
    LOW ≠ ((Button.new 2 HIGH).after 32 (held HIGH [0, 600, 700])).pressed ∧
      ((((Button.new 2 HIGH).after 32 (held HIGH [0, 600, 700])).handleButton 32 LOW
          900).button.handleButton 32 LOW 950).button
        = (((Button.new 2 HIGH).after 32 (held HIGH [0, 600, 700])).handleButton 32 LOW
          900).button :=
  ⟨by decide,
    (C18_idempotent_idle_poll 32 ((Button.new 2 HIGH).after 32 (held HIGH [0, 600, 700]))
      LOW LOW 900 950 (by decide) (by decide)).1⟩

/-- C19: for a freshly constructed ButtonHandler and a clock value now with
600 <= now < 2^w, if all four pins read LOW then handleButtons returns
buttonOnePressed = true and the other three fields false, and if all four pins read
HIGH it returns buttonOnePressed = false and the other three fields true. -/
theorem C19_button_one_active_low (w now : Nat) (pinOne pinTwo pinThree pinTop : Int)
    (h6 : 600 ≤ now) (hw : now < 2 ^ w) :
    ((ButtonHandler.new pinOne pinTwo pinThree pinTop).handleButtons w now
        (Levels.mk LOW LOW LOW LOW)).input
        = { buttonOnePressed := true, buttonTwoPressed := false,
            buttonThreePressed := false, buttonTopPressed := false } ∧
      ((ButtonHandler.new pinOne pinTwo pinThree pinTop).handleButtons w now
        (Levels.mk HIGH HIGH HIGH HIGH)).input
        = { buttonOnePressed := false, buttonTwoPressed := true,
            buttonThreePressed := true, buttonTopPressed := true } := by
  have hp : ∀ (pin : Int) (p : Bool), ((Button.new pin p).handleButton w p now).ret = true :=
    fun pin p => handleButton_held_late w (Button.new pin p) now rfl rfl h6 hw
  have hn : ∀ (pin : Int) (p q : Bool), q ≠ p →
      ((Button.new pin p).handleButton w q now).ret = false := by
    intro pin p q hq
    rw [handleButton_idle w q (Button.new pin p) now hq]
    simp [Button.new, LOW]
  simp only [ButtonHandler.handleButtons, ButtonHandler.new]
  refine ⟨?_, ?_⟩
  · rw [hp pinOne LOW, hn pinTwo HIGH LOW (by decide), hn pinThree HIGH LOW (by decide),
      hn pinTop HIGH LOW (by decide)]
  · rw [hn pinOne LOW HIGH (by decide), hp pinTwo HIGH, hp pinThree HIGH, hp pinTop HIGH]

/-- C19 (witness): pins 2, 3, 4, 5 polled at clock value 700 with a 32-bit clock. -/
theorem C19_button_one_active_low_witness :
    600 ≤ 700 ∧ 700 < 2 ^ 32 ∧
      ((ButtonHandler.new 2 3 4 5).handleButtons 32 700 (Levels.mk LOW LOW LOW LOW)).input
        = { buttonOnePressed := true, buttonTwoPressed := false,
            buttonThreePressed := false, buttonTopPressed := false } ∧
      ((ButtonHandler.new 2 3 4 5).handleButtons 32 700
        (Levels.mk HIGH HIGH HIGH HIGH)).input
        = { buttonOnePressed := false, buttonTwoPressed := true,
            buttonThreePressed := true, buttonTopPressed := true } :=
  ⟨by decide, by decide, C19_button_one_active_low 32 700 2 3 4 5 (by decide) (by decide)⟩

/-- C20: starting from a freshly constructed Button, for every sequence of handleButton
calls with arbitrary pin levels whose timestamps are all below 600, no call returns
true, and lastPressTime is 0 and reportedPress is false after every call. -/
theorem C20_boot_dead_time (w : Nat) (pin : Int) (pressed : Bool)
    (calls : List (Bool × Nat)) (hts : ∀ c ∈ calls, c.2 < 600) :
    ∀ o ∈ (Button.new pin pressed).run w calls,
      o.ret = false ∧ o.button.lastPressTime = 0 ∧ o.button.reportedPress = false :=
  run_early w calls (Button.new pin pressed) rfl rfl hts

/-- C20 (witness): press, bounce and release within the first 600 ms; the outcome of
the first call of the run. -/
theorem C20_boot_dead_time_witness :
    (∀ c ∈ [(HIGH, 5), (LOW, 20), (HIGH, 40), (HIGH, 599), (LOW, 599)], c.2 < 600) ∧
      ((Button.new 2 HIGH).handleButton 32 HIGH 5).ret = false ∧
      ((Button.new 2 HIGH).handleButton 32 HIGH 5).button.lastPressTime = 0 ∧
      ((Button.new 2 HIGH).handleButton 32 HIGH 5).button.reportedPress = false :=
  ⟨by decide,
    C20_boot_dead_time 32 2 HIGH [(HIGH, 5), (LOW, 20), (HIGH, 40), (HIGH, 599), (LOW, 599)]
      (by decide) ((Button.new 2 HIGH).handleButton 32 HIGH 5)
      (by simp [Button.run])⟩

end MiniPillScale
